import Mathlib

/-!
Verification of the throughput-limiting message processor
(`telegram/ext/messagequeue.py`): the `DelayQueue` worker loop
(sliding-window admission control), `DelayQueue.put`/`stop`, and the
`MessageQueue` registry.  Time values (`time.perf_counter` readings,
`time_limit`) are modelled as rationals; a Python `list` of floats
becomes a `List ℚ`.
-/

namespace Messagequeue

/-- Model of `telegram.utils.promise.Promise` (external collaborator):
after `run()`, `exception` holds the captured exception (by id), or
`none` when the callable succeeded.  A freshly built promise has
`exception = none`. -/
structure Promise where
  exception : Option ℕ
  deriving DecidableEq

/-- Lines 142-152 of `DelayQueue.run`: the sliding-window maintenance.
`now = time.perf_counter()`; the cutoff is `t_delta = now - self.time_limit`.
If `times` is non-empty and `t_delta > times[-1]`, reset `times = [now]`;
otherwise keep `[t for t in times if t >= t_delta]` and append `now`. -/
def updateTimes (W : ℚ) (times : List ℚ) (now : ℚ) : List ℚ :=
  match times.getLast? with
  | some last =>
      if now - W > last then [now]
      else times.filter (fun t => decide (now - W ≤ t)) ++ [now]
  | none => times.filter (fun t => decide (now - W ≤ t)) ++ [now]

/-- Outcome of one pass through lines 142-154 of `DelayQueue.run`:
either the worker proceeds (carrying the updated `times` and the clock
value after the saturation sleep, i.e. `now` plus the slept duration),
or the saturation branch's `times[1]` is out of bounds and the worker
raises `IndexError`. -/
inductive StepOut where
  | ok (ts : List ℚ) (wakeAt : ℚ)
  | indexErr (ts : List ℚ)
  deriving DecidableEq

/-- Lines 142-154 of `DelayQueue.run`: window maintenance followed by the
saturation check `if len(times) >= self.burst_limit: time.sleep(times[1] - t_delta)`.
The clock after the sleep is `now + (times[1] - t_delta)`.  Accessing
`times[1]` on a list of fewer than two elements is Python's `IndexError`. -/
def runStep (B : ℕ) (W : ℚ) (times : List ℚ) (now : ℚ) : StepOut :=
  if B ≤ (updateTimes W times now).length then
    match (updateTimes W times now).get? 1 with
    | some t1 => .ok (updateTimes W times now) (now + (t1 - (now - W)))
    | none => .indexErr (updateTimes W times now)
  else .ok (updateTimes W times now) now

/-- The successive values of the worker's `times` list along a run of the
loop, one entry per dequeued task, given the clock reading observed at
each `self._queue.get()`.  The trace stops at an `IndexError`, recording
the `times` value that triggered it. -/
def runTrace (B : ℕ) (W : ℚ) : List ℚ → List ℚ → List (List ℚ)
  | _, [] => []
  | times, now :: rest =>
      match runStep B W times now with
      | .ok ts _ => ts :: runTrace B W ts rest
      | .indexErr ts => [ts]

/-- A schedule of clock readings is valid for a run when each reading is
strictly later than the clock value at the end of the previous iteration
(in particular no reading occurs before the previous saturation sleep has
finished), and the worker never raises.  `wake` is the clock value at the
end of the previous iteration. -/
def validRun (B : ℕ) (W : ℚ) : List ℚ → ℚ → List ℚ → Bool
  | _, _, [] => true
  | times, wake, now :: rest =>
      decide (wake < now) &&
        match runStep B W times now with
        | .ok ts wakeAt => validRun B W ts wakeAt rest
        | .indexErr _ => false

/-- Schedule validity under the idealized clock of the claim: sleeps wake
exactly on time and dequeue/dispatch take no time, so a reading may
coincide with the end of the previous iteration (`wake ≤ now`). -/
def validRunIdeal (B : ℕ) (W : ℚ) : List ℚ → ℚ → List ℚ → Bool
  | _, _, [] => true
  | times, wake, now :: rest =>
      decide (wake ≤ now) &&
        match runStep B W times now with
        | .ok ts wakeAt => validRunIdeal B W ts wakeAt rest
        | .indexErr _ => false

/-- What lines 156-166 of `DelayQueue.run` do with the dequeued promise
once admitted: forwarded to `self.parent.put(promise=promise)` without
being run, or run here (`promise.run()`) followed by the error-handling
chain `if self.dispatcher: ... elif promise.exception: self.exc_route(...)`. -/
inductive DispatchOutcome where
  | forwardedToParent (p : Promise)
  | ranThenDispatcher (p : Promise)
  | ranThenSink (e : ℕ)
  | ranNoReport (p : Promise)
  deriving DecidableEq

/-- Lines 156-166 of `DelayQueue.run`.  `dispatcher` is
`self.dispatcher` (by id); `hasParent` is whether `self.parent` is set. -/
def dispatchPromise (hasParent : Bool) (dispatcher : Option ℕ)
    (p : Promise) : DispatchOutcome :=
  if hasParent then .forwardedToParent p
  else if dispatcher.isSome then .ranThenDispatcher p
  else
    match p.exception with
    | some e => .ranThenSink e
    | none => .ranNoReport p

/-- Whether the outcome ran the promise's callable on this worker. -/
def DispatchOutcome.ranHere : DispatchOutcome → Bool
  | .forwardedToParent _ => false
  | _ => true

/-- Whether the outcome invoked `self.exc_route` (the error sink). -/
def DispatchOutcome.sinkCalled : DispatchOutcome → Bool
  | .ranThenSink _ => true
  | _ => false

/-- Whether the outcome handed the promise to the dispatcher. -/
def DispatchOutcome.dispatcherCalled : DispatchOutcome → Bool
  | .ranThenDispatcher _ => true
  | _ => false

/-- `DelayQueue._default_exception_handler` (lines 186-188): `raise exc` —
the default error sink re-raises the exception it is given. -/
def default_exception_handler (e : ℕ) : Except ℕ Unit := .error e

/-- State of a `DelayQueue` instance.  `exc_route = none` means the
default re-raising handler (no `exc_route`/`error_handler` argument was
given); `queue` is the pending FIFO, where `none` is the sentinel that
`stop` pushes to unfreeze a blocked worker. -/
structure DelayQueue where
  burst_limit : ℕ
  time_limit : ℚ
  exc_route : Option ℕ
  dispatcher : Option ℕ
  hasParent : Bool
  alive : Bool
  exit_req : Bool
  queue : List (Option Promise)
  name : String
  deriving DecidableEq

/-- The two errors `DelayQueue.put` can raise synchronously:
`ValueError` for inconsistent arguments (line 205), `DelayQueueError`
for a stopped thread (line 208). -/
inductive PutError where
  | invalidArguments
  | notRunning
  deriving DecidableEq

/-- Line 204 of `DelayQueue.put`: the call is accepted iff
`bool(promise) ^ all(v is not None for v in [func, args, kwargs])`.
A `Promise` instance is always truthy, so `bool(promise)` is presence. -/
def wellFormedArgs (func args kwargs : Option ℕ) (promise : Option Promise) :
    Bool :=
  Bool.xor promise.isSome (func.isSome && args.isSome && kwargs.isSome)

/-- `DelayQueue.put` (lines 190-213): validate the argument combination,
then check liveness (`not self.is_alive() or self.__exit_req`), then build
the promise if needed and push it onto the queue, returning it. -/
def DelayQueue.put (st : DelayQueue) (func args kwargs : Option ℕ)
    (promise : Option Promise) : Except PutError (DelayQueue × Promise) :=
  if !wellFormedArgs func args kwargs promise then .error .invalidArguments
  else if !st.alive || st.exit_req then .error .notRunning
  else
    match promise with
    | some p => .ok ({ st with queue := st.queue ++ [some p] }, p)
    | none =>
        .ok ({ st with queue := st.queue ++ [some { exception := none }] },
          { exception := none })

/-- `DelayQueue.stop` (lines 168-184): set the `__exit_req` flag, then put
the `None` sentinel on the queue to unfreeze a blocked worker.  (The
subsequent `join(timeout)` only waits and changes no modelled state.) -/
def DelayQueue.stop (st : DelayQueue) : DelayQueue :=
  { st with exit_req := true, queue := st.queue ++ [none] }

/-- Result of one iteration of the worker loop (lines 136-166), given the
item obtained from `self._queue.get()`: the worker returns (shutdown),
crashes on `times[1]`, dispatches the admitted promise, or — when the
dequeued item is the `None` sentinel but `__exit_req` was not set —
fails trying to use `None` as a promise. -/
inductive IterOutcome where
  | exited
  | crashed (ts : List ℚ)
  | dispatched (ts : List ℚ) (wakeAt : ℚ) (out : DispatchOutcome)
  | sentinelFault (ts : List ℚ) (wakeAt : ℚ)
  deriving DecidableEq

/-- One iteration of `DelayQueue.run`'s `while True` body: after the
blocking `get()` returned `item`, check `self.__exit_req` and return if
set; otherwise run the delay routine on the clock reading `now` and
dispatch. -/
def workerIteration (exit_req hasParent : Bool) (dispatcher : Option ℕ)
    (B : ℕ) (W : ℚ) (times : List ℚ) (now : ℚ) (item : Option Promise) :
    IterOutcome :=
  if exit_req then .exited
  else
    match runStep B W times now with
    | .indexErr ts => .crashed ts
    | .ok ts wakeAt =>
        match item with
        | some p => .dispatched ts wakeAt (dispatchPromise hasParent dispatcher p)
        | none => .sentinelFault ts wakeAt

/-- State of a `MessageQueue` registry: the `running` flag, the optional
dispatcher, and the named `DelayQueue` instances it owns. -/
structure MessageQueue where
  running : Bool
  dispatcher : Option ℕ
  queues : List DelayQueue
  deriving DecidableEq

/-- `MessageQueue.DEFAULT_QUEUE` (line 358). -/
def DEFAULT_QUEUE : String := "default_delay_queue"

/-- `MessageQueue.GROUP_QUEUE` (line 360). -/
def GROUP_QUEUE : String := "group_delay_queue"

/-- `DelayQueue.__init__` (lines 86-122): `time_limit = time_limit_ms / 1000`,
`exc_route = exc_route or error_handler or default`, `dispatcher = None`,
the thread starts (is alive) iff `autostart`.  `error_handler` here stands
for the resolved `exc_route or error_handler` argument pair. -/
def mkDelayQueue (burst_limit : ℕ) (time_limit_ms : ℚ)
    (error_handler : Option ℕ) (autostart : Bool) (name : String)
    (hasParent : Bool) : DelayQueue :=
  { burst_limit := burst_limit
    time_limit := time_limit_ms / 1000
    exc_route := error_handler
    dispatcher := none
    hasParent := hasParent
    alive := autostart
    exit_req := false
    queue := []
    name := name }

/-- `MessageQueue.__init__` (lines 247-285): `running = autostart`,
`dispatcher = None`, and two built-in delay queues, both given
`error_handler = exc_route or error_handler`; the group queue's parent is
the default queue.  Note the `error_handler` argument is passed on to the
two constructors but is not stored on the `MessageQueue` itself. -/
def mkMessageQueue (all_burst_limit : ℕ) (all_time_limit_ms : ℚ)
    (group_burst_limit : ℕ) (group_time_limit_ms : ℚ)
    (error_handler : Option ℕ) (autostart : Bool) : MessageQueue :=
  { running := autostart
    dispatcher := none
    queues :=
      [mkDelayQueue all_burst_limit all_time_limit_ms error_handler
        autostart DEFAULT_QUEUE false,
       mkDelayQueue group_burst_limit group_time_limit_ms error_handler
        autostart GROUP_QUEUE true] }

/-- Lines 297-298 of `MessageQueue.add_delay_queue`:
`if self.dispatcher: delay_queue.set_dispatcher(self.dispatcher)`. -/
def addDispatcherStep (mq : MessageQueue) (dq : DelayQueue) : DelayQueue :=
  if mq.dispatcher.isSome then { dq with dispatcher := mq.dispatcher }
  else dq

/-- Lines 299-300 of `MessageQueue.add_delay_queue`:
`if self.running and not delay_queue.is_alive(): delay_queue.start()`. -/
def addStartStep (mq : MessageQueue) (dq : DelayQueue) : DelayQueue :=
  if mq.running && !dq.alive then { dq with alive := true } else dq

/-- `MessageQueue.add_delay_queue` (lines 287-300): store the queue under
its name, give it the registry's dispatcher if one is set, and start it if
the registry is running and the queue is not alive.  (The Python dict
holds a reference, so the stored entry reflects both later mutations.) -/
def MessageQueue.add_delay_queue (mq : MessageQueue) (dq : DelayQueue) :
    MessageQueue :=
  { mq with
    queues := mq.queues.filter (fun x => x.name != dq.name)
      ++ [addStartStep mq (addDispatcherStep mq dq)] }

/-- `MessageQueue.start` (lines 316-320): start every registered delay
queue, then set `running = True`. -/
def MessageQueue.start (mq : MessageQueue) : MessageQueue :=
  { mq with
    queues := mq.queues.map (fun q => { q with alive := true }),
    running := true }

/-- `MessageQueue.stop` (lines 322-331): call `stop(timeout)` on every
registered delay queue.  Nothing else is touched — in particular the
`running` flag is not. -/
def MessageQueue.stop (mq : MessageQueue) : MessageQueue :=
  { mq with queues := mq.queues.map DelayQueue.stop }

/-- Invariant maintained by the worker between iterations: `times` holds at
most `burst_limit` entries, every entry is no later than the clock value
`wake` reached at the end of the previous iteration, and when the window is
saturated the previous saturation sleep ran at least until the second
recorded timestamp aged out of the window. -/
def timesInv (B : ℕ) (W : ℚ) (times : List ℚ) (wake : ℚ) : Prop :=
  times.length ≤ B ∧ (∀ t ∈ times, t ≤ wake) ∧
    (B ≤ times.length → ∀ t1, times.get? 1 = some t1 → t1 + W ≤ wake)

theorem length_filter_lt_of_mem {α : Type} {p : α → Bool} {a : α} {l : List α}
    (ha : a ∈ l) (hpa : p a = false) : (l.filter p).length < l.length := by
  induction l with
  | nil => cases ha
  | cons x xs ih =>
      rcases List.mem_cons.mp ha with rfl | hmem
      · have := List.length_filter_le p xs
        simp [List.filter_cons, hpa]
        omega
      · by_cases hx : p x
        · have := ih hmem
          simp [List.filter_cons, hx]
          omega
        · have := ih hmem
          simp [List.filter_cons, hx]
          omega

theorem updateTimes_cases (W : ℚ) (times : List ℚ) (now : ℚ) :
    updateTimes W times now = [now] ∨
    updateTimes W times now
      = times.filter (fun t => decide (now - W ≤ t)) ++ [now] := by
  unfold updateTimes
  cases times.getLast? with
  | none => right; rfl
  | some last =>
      by_cases h : now - W > last
      · left; simp [h]
      · right; simp [h]

theorem updateTimes_subset {W : ℚ} {times : List ℚ} {now : ℚ} :
    ∀ t ∈ updateTimes W times now, t = now ∨ (t ∈ times ∧ now - W ≤ t) := by
  rcases updateTimes_cases W times now with h | h <;> rw [h] <;> intro t ht
  · left; simpa using ht
  · rcases List.mem_append.mp ht with hf | hn
    · right
      have hft := List.mem_filter.mp hf
      exact ⟨hft.1, by simpa using hft.2⟩
    · left; simpa using hn

theorem timesInv_step {B : ℕ} {W : ℚ} (hB : 2 ≤ B) (hW : 0 < W)
    {times : List ℚ} {wake now : ℚ} {ts : List ℚ} {wakeAt : ℚ}
    (hinv : timesInv B W times wake) (hlt : wake < now)
    (hstep : runStep B W times now = .ok ts wakeAt) :
    timesInv B W ts wakeAt ∧ now ≤ wakeAt := by
  obtain ⟨hlen, hmem, hsat⟩ := hinv
  have hulen : (updateTimes W times now).length ≤ B := by
    rcases updateTimes_cases W times now with h | h
    · rw [h]; simpa using by omega
    · rcases Nat.lt_or_ge times.length B with hlt2 | hge
      · have := List.length_filter_le (fun t => decide (now - W ≤ t)) times
        rw [h]; simp only [List.length_append, List.length_cons,
          List.length_nil]
        omega
      · have h1 : 1 < times.length := by omega
        have ht1 : times.get? 1 = some (times.get ⟨1, h1⟩) :=
          List.get?_eq_get h1
        have hsleep := hsat hge _ ht1
        have ht1mem : times.get ⟨1, h1⟩ ∈ times := List.get?_mem ht1
        have hfa : (fun t => decide (now - W ≤ t)) (times.get ⟨1, h1⟩)
            = false := by
          simp only [decide_eq_false_iff_not, not_le]
          linarith
        have hflt := @length_filter_lt_of_mem ℚ
          (fun t => decide (now - W ≤ t)) (times.get ⟨1, h1⟩) times ht1mem hfa
        rw [h]; simp only [List.length_append, List.length_cons,
          List.length_nil]
        omega
  have humem : ∀ t ∈ updateTimes W times now, t ≤ now := by
    intro t ht
    rcases updateTimes_subset t ht with rfl | ⟨htm, _⟩
    · exact le_refl t
    · linarith [hmem t htm]
  have humemlo : ∀ t ∈ updateTimes W times now, now - W ≤ t := by
    intro t ht
    rcases updateTimes_subset t ht with rfl | ⟨_, hge⟩
    · linarith
    · exact hge
  unfold runStep at hstep
  by_cases hc : B ≤ (updateTimes W times now).length
  · rw [if_pos hc] at hstep
    cases hg : (updateTimes W times now).get? 1 with
    | none => rw [hg] at hstep; simp at hstep
    | some t1 =>
        rw [hg] at hstep
        injection hstep with h1 h2
        subst h1
        have ht1u := List.get?_mem hg
        have hlo := humemlo t1 ht1u
        have hwk : now ≤ wakeAt := by rw [← h2]; linarith
        refine ⟨⟨hulen, ?_, ?_⟩, hwk⟩
        · intro t ht
          have := humem t ht
          linarith
        · intro _ v hv
          have hv1 : v = t1 := by
            rw [hg] at hv
            exact (Option.some.inj hv).symm
          subst hv1
          rw [← h2]
          linarith
  · rw [if_neg hc] at hstep
    injection hstep with h1 h2
    subst h1
    refine ⟨⟨hulen, ?_, ?_⟩, le_of_eq h2⟩
    · intro t ht
      have := humem t ht
      rw [← h2]
      linarith
    · intro hcon
      exact absurd hcon hc

theorem runTrace_length_le {B : ℕ} {W : ℚ} (hB : 2 ≤ B) (hW : 0 < W) :
    ∀ (nows : List ℚ) (times : List ℚ) (wake : ℚ),
      timesInv B W times wake → validRun B W times wake nows = true →
      ∀ ts ∈ runTrace B W times nows, ts.length ≤ B := by
  intro nows
  induction nows with
  | nil =>
      intro times wake _ _ ts hts
      simp [runTrace] at hts
  | cons now rest ih =>
      intro times wake hinv hval ts hts
      cases hstep : runStep B W times now with
      | ok u wakeAt =>
          simp only [validRun, hstep] at hval
          rw [Bool.and_eq_true] at hval
          have hlt : wake < now := of_decide_eq_true hval.1
          have hinv' := (timesInv_step hB hW hinv hlt hstep).1
          simp only [runTrace, hstep] at hts
          rcases List.mem_cons.mp hts with rfl | hts'
          · exact hinv'.1
          · exact ih u wakeAt hinv' hval.2 ts hts'
      | indexErr u =>
          simp only [validRun, hstep, Bool.and_false] at hval
          exact Bool.noConfusion hval

/-- Claim C1 (amended): for a DelayQueue with burst_limit `B ≥ 2` and
window `W > 0`, under a clock whose reading at each dequeue is strictly
later than the clock value at the end of the previous iteration (in
particular no reading occurs before the previous saturation sleep has
finished, and no two iterations observe the same instant), every value
taken by the worker's `times` list holds at most `B` timestamps, so at
most `B` of its recorded admission timestamps fall in any half-open
interval of length `W`.  The claim as literally stated — with coincident
readings allowed, as the idealized zero-cost dequeue/dispatch permits —
is refuted by `C1_counterexample`, and burst_limit 1 crashes (claim C2). -/
theorem C1_theorem (B : ℕ) (W : ℚ) (hB : 2 ≤ B) (hW : 0 < W) (wake : ℚ)
    (nows : List ℚ) (hval : validRun B W [] wake nows = true) :
    ∀ ts ∈ runTrace B W [] nows, ∀ a : ℚ,
      (ts.filter fun t => decide (a ≤ t ∧ t < a + W)).length ≤ B := by
  intro ts hts a
  have h0 : timesInv B W [] wake := by
    refine ⟨by simp, by simp, ?_⟩
    intro _ t1 ht1
    simp at ht1
  have hlenB := runTrace_length_le hB hW nows [] wake h0 hval ts hts
  exact le_trans (List.length_filter_le _ ts) hlenB

/-- Witness for C1: burst_limit 2, window 1, clock readings 0, 1, 3 with
initial clock -1 form a valid run; the theorem bounds the count of
timestamps of the second trace state `[0, 1]` in the window `[0, 1)`. -/
theorem C1_witness :
    validRun 2 1 [] (-1) [0, 1, 3] = true ∧
    (([0, 1] : List ℚ).filter
      fun t => decide ((0:ℚ) ≤ t ∧ t < 0 + 1)).length ≤ 2 := by
  have hval : validRun 2 1 [] (-1) [0, 1, 3] = true := by
    norm_num [validRun, runStep, updateTimes, List.filter]
  refine ⟨hval, ?_⟩
  have hmem : ([0, 1] : List ℚ) ∈ runTrace 2 1 [] [0, 1, 3] := by
    norm_num [runTrace, runStep, updateTimes, List.filter]
  exact C1_theorem 2 1 (by norm_num) (by norm_num) (-1) [0, 1, 3] hval
    [0, 1] hmem 0

/-- Counterexample to C1 as stated: under the claim's idealized clock
(saturation sleeps wake exactly on time, dequeue and dispatch take no
time, so successive readings may coincide), a DelayQueue with
burst_limit 2 and window 1 fed five tasks observes readings 0, 0, 1, 1, 1:
the worker's `times` list reaches `[0, 0, 1, 1, 1]`, which has three
admission timestamps inside the half-open window `[1, 2)` — more than
burst_limit.  The filter keeps entries exactly at the cutoff, so the
entry at the window boundary never ages out and the zero-length sleep
`times[1] - t_delta = 0` admits unboundedly many tasks at the same instant. -/
theorem C1_counterexample :
    validRunIdeal 2 1 [] 0 [0, 0, 1, 1, 1] = true ∧
    [0, 0, 1, 1, 1] ∈ runTrace 2 1 [] [0, 0, 1, 1, 1] ∧
    2 < (([0, 0, 1, 1, 1] : List ℚ).filter
          fun t => decide ((1:ℚ) ≤ t ∧ t < 1 + 1)).length := by
  refine ⟨?_, ?_, ?_⟩ <;>
    norm_num [validRunIdeal, runTrace, runStep, updateTimes, List.filter]

/-- Claim C2, evaluated at the failing input: with burst_limit = 1 the very
first dequeued task yields `times = [now]`, whose length 1 already reaches
burst_limit, so the worker enters the saturation branch and evaluates
`times[1]` — out of bounds on a one-element list, so Python raises
IndexError and the worker thread dies.  The claim (and the spec's "a
burstLimit of 1 degenerates to fully serial, window-spaced execution")
says this access is always in bounds; the code is a slip.  Evaluated at
burst_limit 1, time_limit 1, first clock reading 0. -/
theorem C2_theorem :
    updateTimes 1 [] 0 = [0] ∧
    1 ≤ (updateTimes 1 [] 0).length ∧
    (updateTimes 1 [] 0).get? 1 = none ∧
    runStep 1 1 [] 0 = .indexErr [0] := by
  refine ⟨?_, ?_, ?_, ?_⟩ <;> norm_num [runStep, updateTimes, List.filter]

/-- A concrete live DelayQueue state, used by the witnesses. -/
def sampleQueue : DelayQueue :=
  { burst_limit := 30, time_limit := 1, exc_route := none,
    dispatcher := none, hasParent := false, alive := true,
    exit_req := false, queue := [], name := "DelayQueue-1" }

/-- Counterexample to C3 as stated: on a live DelayQueue, supplying a
promise together with `func` (but `args = kwargs = None`) does NOT raise:
`bool(promise) ^ all(...)` is `True ^ False = True`, so line 204's
validation passes and the promise is enqueued.  The claim says every call
supplying a promise together with any of func, args, kwargs raises
InvalidArguments. -/
theorem C3_counterexample :
    sampleQueue.put (some 0) none none (some { exception := none })
      = .ok ({ sampleQueue with queue := [some { exception := none }] },
          { exception := none }) := rfl

/-- Claim C3 (amended): `put` raises InvalidArguments exactly when the
presence of a promise coincides with the joint presence of all three of
func, args, kwargs (both patterns fully supplied, or neither).  In
particular a promise plus all three raises and supplying none of the four
raises, but a promise together with a proper subset of {func, args,
kwargs} passes validation, contrary to the claim. -/
theorem C3_theorem (st : DelayQueue) (func args kwargs : Option ℕ)
    (promise : Option Promise) :
    st.put func args kwargs promise = .error .invalidArguments ↔
      promise.isSome = (func.isSome && args.isSome && kwargs.isSome) := by
  have hx : (wellFormedArgs func args kwargs promise = false) ↔
      promise.isSome = (func.isSome && args.isSome && kwargs.isSome) := by
    unfold wellFormedArgs
    cases promise.isSome <;>
      cases (func.isSome && args.isSome && kwargs.isSome) <;> simp
  unfold DelayQueue.put
  cases hwf : wellFormedArgs func args kwargs promise
  · simp [hx.mp hwf]
  · have hrhs := hx.not.mp (by simp [hwf])
    simp only [hwf, Bool.not_true, Bool.false_eq_true, if_false]
    constructor
    · intro h
      exfalso
      by_cases hl : (!st.alive || st.exit_req) = true
      · rw [if_pos hl] at h
        simp at h
      · rw [if_neg hl] at h
        cases promise <;> simp at h
    · intro h
      exact absurd h hrhs

/-- Claim C4 (amended): `add_delay_queue` stores the queue under its name
and (i) leaves its error handler untouched — the error-handler callable
given at registry construction is passed to the two built-in queues only
and is not stored on the registry, hence never propagated here; (ii)
propagates the registry's dispatcher exactly when one is set; (iii) starts
the queue iff the registry is running and the queue was not alive. -/
theorem C4_theorem (mq : MessageQueue) (dq : DelayQueue) :
    ∃ q ∈ (mq.add_delay_queue dq).queues,
      q.name = dq.name ∧
      q.exc_route = dq.exc_route ∧
      q.dispatcher = (if mq.dispatcher.isSome then mq.dispatcher
        else dq.dispatcher) ∧
      q.alive = (dq.alive || mq.running) := by
  have h1name : (addDispatcherStep mq dq).name = dq.name := by
    unfold addDispatcherStep; split <;> rfl
  have h1exc : (addDispatcherStep mq dq).exc_route = dq.exc_route := by
    unfold addDispatcherStep; split <;> rfl
  have h1alive : (addDispatcherStep mq dq).alive = dq.alive := by
    unfold addDispatcherStep; split <;> rfl
  have h1disp : (addDispatcherStep mq dq).dispatcher
      = (if mq.dispatcher.isSome then mq.dispatcher else dq.dispatcher) := by
    unfold addDispatcherStep; split <;> simp_all
  have h2same : ∀ d : DelayQueue, (addStartStep mq d).name = d.name ∧
      (addStartStep mq d).exc_route = d.exc_route ∧
      (addStartStep mq d).dispatcher = d.dispatcher := by
    intro d; unfold addStartStep; split <;> exact ⟨rfl, rfl, rfl⟩
  have h2alive : ∀ d : DelayQueue,
      (addStartStep mq d).alive = (d.alive || mq.running) := by
    intro d
    unfold addStartStep
    by_cases hr : mq.running <;> by_cases hal : d.alive <;> simp [hr, hal]
  refine ⟨addStartStep mq (addDispatcherStep mq dq), ?_, ?_, ?_, ?_, ?_⟩
  · exact List.mem_append_right _ (List.mem_singleton.mpr rfl)
  · rw [(h2same _).1, h1name]
  · rw [(h2same _).2.1, h1exc]
  · rw [(h2same _).2.2, h1disp]
  · rw [h2alive _, h1alive]

/-- Counterexample to C4 as stated: a registry built with a registry-wide
error handler (id 7) and a dispatcherless state receives a new delay queue
that has no handler of its own.  After `add_delay_queue` the two built-in
queues carry handler 7 (it was passed to their constructors), but the
added queue still has the default handler — the registry-wide error sink
was not propagated to it, though it was started. -/
theorem C4_counterexample :
    ((mkMessageQueue 30 1000 20 60000 (some 7) true).add_delay_queue
        (mkDelayQueue 5 1000 none false "extra" false)).queues.map
        (fun q => (q.name, q.exc_route, q.alive))
      = [("default_delay_queue", some 7, true),
         ("group_delay_queue", some 7, true),
         ("extra", none, true)] := by
  rfl

/-- Claim C5: the sliding-window maintenance of each worker iteration,
with cutoff `now - time_limit`: if the timestamp list is non-empty and its
last entry is strictly older than the cutoff, the list is reset to exactly
`[now]`; otherwise it becomes the order-preserving subsequence of entries
`≥ cutoff` (a sublist of the old list) with `now` appended at the end. -/
theorem C5_theorem (W : ℚ) (times : List ℚ) (now : ℚ) :
    (∀ last, times.getLast? = some last → last < now - W →
      updateTimes W times now = [now]) ∧
    ((times = [] ∨ ∀ last, times.getLast? = some last → now - W ≤ last) →
      updateTimes W times now
        = times.filter (fun t => decide (now - W ≤ t)) ++ [now] ∧
      (times.filter (fun t => decide (now - W ≤ t))).Sublist times ∧
      (updateTimes W times now).getLast? = some now) := by
  constructor
  · intro last hl hlt
    unfold updateTimes
    rw [hl]
    simp [hlt]
  · intro h
    have hfil : updateTimes W times now
        = times.filter (fun t => decide (now - W ≤ t)) ++ [now] := by
      unfold updateTimes
      cases hl : times.getLast? with
      | none => rfl
      | some last =>
          rcases h with h | h
          · subst h; simp at hl
          · show (if now - W > last then [now]
                else times.filter (fun t => decide (now - W ≤ t)) ++ [now])
              = times.filter (fun t => decide (now - W ≤ t)) ++ [now]
            rw [if_neg (not_lt.mpr (h last hl))]
    refine ⟨hfil, List.filter_sublist times, ?_⟩
    rw [hfil]
    exact List.getLast?_concat _

/-- Witness for C5: `times = [1, 2]`, `now = 3`, `time_limit = 2`: the
last entry 2 is not older than the cutoff 1, so the list is filtered
(keeping both entries) and 3 is appended. -/
theorem C5_witness :
    updateTimes 2 [1, 2] 3
      = ([1, 2] : List ℚ).filter (fun t => decide ((3:ℚ) - 2 ≤ t)) ++ [3] ∧
    (([1, 2] : List ℚ).filter
      (fun t => decide ((3:ℚ) - 2 ≤ t))).Sublist [1, 2] ∧
    (updateTimes 2 [1, 2] 3).getLast? = some 3 :=
  (C5_theorem 2 [1, 2] 3).2 (Or.inr (by
    intro last hl
    simp at hl
    subst hl
    norm_num))

/-- Claim C6: dispatch of an admitted task (lines 156-166).  With a
parent, the promise is forwarded to the parent's `put` — not run on this
worker and not reported to the sink or dispatcher here.  With no parent,
the promise is run; if a dispatcher is set the outcome goes to it and the
error sink is bypassed; otherwise a captured exception is passed to the
error sink, whose default implementation re-raises it. -/
theorem C6_theorem (dispatcher : Option ℕ) (p : Promise) (e : ℕ) :
    (dispatchPromise true dispatcher p = .forwardedToParent p ∧
      (dispatchPromise true dispatcher p).ranHere = false ∧
      (dispatchPromise true dispatcher p).sinkCalled = false ∧
      (dispatchPromise true dispatcher p).dispatcherCalled = false) ∧
    (dispatcher.isSome = true →
      dispatchPromise false dispatcher p = .ranThenDispatcher p ∧
      (dispatchPromise false dispatcher p).sinkCalled = false ∧
      (dispatchPromise false dispatcher p).ranHere = true) ∧
    (p.exception = some e →
      dispatchPromise false none p = .ranThenSink e ∧
      (dispatchPromise false none p).ranHere = true) ∧
    default_exception_handler e = .error e := by
  refine ⟨?_, ?_, ?_, rfl⟩
  · exact ⟨rfl, rfl, rfl, rfl⟩
  · intro hd
    simp [dispatchPromise, hd, DispatchOutcome.sinkCalled,
      DispatchOutcome.ranHere]
  · intro he
    simp [dispatchPromise, he, DispatchOutcome.ranHere]

/-- Witness for C6: a dispatcher with id 0 and a promise whose run
captured exception 5. -/
theorem C6_witness :
    (some 0 : Option ℕ).isSome = true ∧
    (Promise.mk (some 5)).exception = some 5 ∧
    dispatchPromise false (some 0) { exception := some 5 }
      = .ranThenDispatcher { exception := some 5 } ∧
    dispatchPromise false none { exception := some 5 } = .ranThenSink 5 := by
  refine ⟨rfl, rfl, ?_, ?_⟩
  · exact ((C6_theorem (some 0) { exception := some 5 } 5).2.1 rfl).1
  · exact ((C6_theorem (some 0) { exception := some 5 } 5).2.2.1 rfl).1

/-- Claim C7: after `stop()` (which sets the shutdown flag) — and more
generally whenever the shutdown flag is set or the worker thread is not
alive — every well-formed `put` call returns the DelayQueueError
("Could not process callback in stopped thread") synchronously: nothing is
enqueued and the caller is never blocked. -/
theorem C7_theorem (st : DelayQueue) (func args kwargs : Option ℕ)
    (promise : Option Promise)
    (hwf : wellFormedArgs func args kwargs promise = true) :
    (st.stop).put func args kwargs promise = .error .notRunning ∧
    ∀ st' : DelayQueue, st'.exit_req = true ∨ st'.alive = false →
      st'.put func args kwargs promise = .error .notRunning := by
  have key : ∀ st' : DelayQueue, st'.exit_req = true ∨ st'.alive = false →
      st'.put func args kwargs promise = .error .notRunning := by
    intro st' h
    have hcond : (!st'.alive || st'.exit_req) = true := by
      rcases h with h | h <;> simp [h]
    simp [DelayQueue.put, hwf, hcond]
  exact ⟨key st.stop (Or.inl rfl), key⟩

/-- Witness for C7: a well-formed promise-only call on the stopped sample
queue. -/
theorem C7_witness :
    wellFormedArgs none none none (some { exception := none }) = true ∧
    (sampleQueue.stop).put none none none (some { exception := none })
      = .error .notRunning :=
  ⟨rfl, (C7_theorem sampleQueue none none none
    (some { exception := none }) rfl).1⟩

/-- Claim C8: once `stop()` has set the shutdown flag, the worker's next
iteration returns immediately after its dequeue, whatever item was
dequeued: a real task that was still pending is discarded — not run, not
forwarded to a parent, no timestamp recorded.  `stop` itself always sets
the flag and appends the sentinel behind any still-pending tasks. -/
theorem C8_theorem (hasParent : Bool) (dispatcher : Option ℕ) (B : ℕ)
    (W : ℚ) (times : List ℚ) (now : ℚ) (item : Option Promise) :
    workerIteration true hasParent dispatcher B W times now item = .exited ∧
    ∀ st : DelayQueue, (st.stop).exit_req = true ∧
      (st.stop).queue = st.queue ++ [none] :=
  ⟨rfl, fun _ => ⟨rfl, rfl⟩⟩

/-- Claim C9: `MessageQueue.stop` stops every registered delay queue but
never modifies the registry's `running` flag; in particular a registry
constructed with autostart still reports `running = True` after `stop`. -/
theorem C9_theorem (mq : MessageQueue) :
    (mq.stop).running = mq.running ∧
    (∀ q ∈ (mq.stop).queues, q.exit_req = true) ∧
    ((mkMessageQueue 30 1000 20 60000 none true).stop).running = true := by
  refine ⟨rfl, ?_, rfl⟩
  intro q hq
  simp only [MessageQueue.stop, List.mem_map] at hq
  obtain ⟨q0, _, rfl⟩ := hq
  rfl

/-- Witness for C9: the autostarted default registry, after `stop`, still
has `running = true` while its default queue has its shutdown flag set. -/
theorem C9_witness :
    ((mkMessageQueue 30 1000 20 60000 none true).stop).running = true ∧
    ∃ q ∈ ((mkMessageQueue 30 1000 20 60000 none true).stop).queues,
      q.exit_req = true := by
  have hm : (mkDelayQueue 30 1000 none true DEFAULT_QUEUE false).stop
      ∈ ((mkMessageQueue 30 1000 20 60000 none true).stop).queues := by
    simp [mkMessageQueue, MessageQueue.stop]
  exact ⟨(C9_theorem (mkMessageQueue 30 1000 20 60000 none true)).2.2,
    ⟨_, hm, (C9_theorem (mkMessageQueue 30 1000 20 60000 none true)).2.1
      _ hm⟩⟩

/-- Claim C10: argument validation precedes the liveness check in `put`: a
call with an inconsistent promise/func/args/kwargs combination returns
InvalidArguments (the ValueError of line 205) whatever the liveness state
— also on a stopped, shutdown-requested or never-started queue, where the
competing error would be the DelayQueueError of line 208. -/
theorem C10_theorem (st : DelayQueue) (func args kwargs : Option ℕ)
    (promise : Option Promise)
    (hbad : wellFormedArgs func args kwargs promise = false) :
    st.put func args kwargs promise = .error .invalidArguments := by
  simp [DelayQueue.put, hbad]

/-- Witness for C10: the all-None call (neither a promise nor any of func,
args, kwargs) on a stopped, dead queue still raises InvalidArguments. -/
theorem C10_witness :
    wellFormedArgs none none none none = false ∧
    DelayQueue.put { sampleQueue with alive := false, exit_req := true }
      none none none none = .error .invalidArguments :=
  ⟨rfl, C10_theorem { sampleQueue with alive := false, exit_req := true }
    none none none none rfl⟩

end Messagequeue
